import Mathlib

/-!
Verification of the Kindelia/Kind front-end support layer:
the `kind-span` crate (symbol interner handles, spans, hash-addressed
node identifiers) and the `kind-checker` driver (`type_check`), embedded
shallowly from the Rust sources.
-/

set_option autoImplicit false

namespace KindSpan

/-- Model of `Symbol(pub u32)` from `kind-span/src/lib.rs`: a 32-bit index
into the symbol interner.  Machine integers are modelled as `Nat`; none of
the verified properties involve 32-bit wraparound. -/
structure Symbol where
  val : Nat
  deriving DecidableEq, Repr

/-- Model of `enum NodeIdSegment { Symbol(u32), Index(u32) }`. -/
inductive NodeIdSegment where
  | symbol (v : Nat)
  | index (v : Nat)
  deriving DecidableEq, Repr

/-- Seed constant of the FxHash algorithm used by `fxhash::hash64`
(64-bit variant). -/
def FXSEED : Nat := 0x517cc1b727220a95

/-- One step of FxHasher: `hash = (hash.rotate_left(5) ^ value) * SEED`,
on 64-bit machine words (hence the `% 2 ^ 64`). -/
def fx_add (h v : Nat) : Nat :=
  (((h % 2 ^ 59) * 2 ^ 5 + h / 2 ^ 59) ^^^ (v % 2 ^ 64)) * FXSEED % 2 ^ 64

/-- Words fed to the hasher by the derived `Hash` instance of
`NodeIdSegment`: the variant discriminant, then the `u32` payload. -/
def NodeIdSegment.feed : NodeIdSegment → List Nat
  | .symbol v => [0, v]
  | .index v => [1, v]

/-- Model of `fxhash::hash64(&data)` for `data : Vec<NodeIdSegment>`:
a fixed, deterministic 64-bit hash of the ordered segment sequence.
The `Hash` instance of `Vec` feeds the length first, then each element. -/
def fxhash64 (data : List NodeIdSegment) : Nat :=
  data.foldl (fun h seg => seg.feed.foldl fx_add h) (fx_add 0 data.length)

/-- Model of `struct NodeId { data: Vec<NodeIdSegment>, hash: u64 }`. -/
structure NodeId where
  data : List NodeIdSegment
  hash : Nat

/-- Model of `impl PartialEq for NodeId`: `self.hash == other.hash`.
The segment sequence is not consulted. -/
def NodeId.eq (a b : NodeId) : Bool :=
  a.hash == b.hash

/-- Model of `impl Hash for NodeId`: `self.hash.hash(state)` — the only
word fed to the hasher state `st` (updated by the hasher step `step`) is
the precomputed hash field. -/
def NodeId.hash_into (n : NodeId) (step : Nat → Nat → Nat) (st : Nat) : Nat :=
  step st n.hash

/-- Model of `NodeId::new`: stores the segments and the precomputed
`fxhash::hash64` of them. -/
def NodeId.new (data : List NodeIdSegment) : NodeId :=
  { data := data, hash := fxhash64 data }

/-- Model of `NodeId::segments`: read access to the stored path. -/
def NodeId.segments (n : NodeId) : List NodeIdSegment :=
  n.data

/-- Modelled from the spec: the `interner` module referenced by
`kind-span/src/lib.rs` (`mod interner`) is not among the sources.  Per the
spec, the Interner holds (1) a growable ordered sequence of strings indexed
by Symbol value (forward table) and (2) a mapping from string content to
Symbol (reverse table), here an association list.  The process-wide mutable
state is passed explicitly. -/
structure Interner where
  forward : List String
  reverse : List (String × Nat)

/-- Lookup of a string in the reverse table. -/
def lookup_rev : List (String × Nat) → String → Option Nat
  | [], _ => none
  | (t, k) :: rest, s => if s = t then some k else lookup_rev rest s

/-- Modelled from the spec: `intern(text)` returns the existing Symbol if
`text` was previously interned; otherwise allocates the next Symbol value,
stores `text` in the forward table, records it in the reverse table, and
returns the new Symbol. -/
def Interner.intern (st : Interner) (s : String) : Symbol × Interner :=
  match lookup_rev st.reverse s with
  | some k => (⟨k⟩, st)
  | none => (⟨st.forward.length⟩,
      ⟨st.forward ++ [s], (s, st.forward.length) :: st.reverse⟩)

/-- Modelled from the spec: `to_str(symbol)` returns the exact string
previously interned for that Symbol (forward-table lookup).  A Symbol never
produced by this interner is a programming error, modelled as `none`. -/
def Interner.to_str (st : Interner) (y : Symbol) : Option String :=
  st.forward[y.val]?

/-- Spec invariant of the interner state: the reverse table records exactly
the positions of the forward table (`forward[reverse[s]] == s`, and every
forward entry is found by the reverse lookup). -/
def Interner.WF (st : Interner) : Prop :=
  ∀ s k, lookup_rev st.reverse s = some k ↔ st.forward[k]? = some s

/-- The interner state before any string is interned (the spec has it
lazily initialized on first use). -/
def Interner.empty : Interner :=
  ⟨[], []⟩

end KindSpan

namespace KindChecker

/-- Stages of the `type_check` pipeline of `kind-checker/src/lib.rs`, one
per operation the function invokes, named after the source calls. -/
inductive Stage where
  | codegen_book
  | from_code
  | alloc_code
  | run_io
  | normalize
  | readback
  | parse_report
  deriving DecidableEq, Repr

/-- Modelled from the spec: the capability surface of the external HVM
evaluator (`hvm::Runtime`), whose sources are not part of this repository:
load-program-from-text (`from_code`, fallible), allocate a named entry
point (`alloc_code`, fallible), run effects to completion (`run_io`),
normalize to irreducible form (`normalize`), and render to text
(`readback`).  `R` is the runtime state; the mutation performed by the
Rust methods is modelled by explicit state passing. -/
structure Hvm (R : Type) where
  from_code : String → Except String R
  alloc_code : R → String → Except String (Nat × R)
  run_io : R → Nat → R
  normalize : R → Nat → R
  readback : R → Nat → String

/-- Outcome of one `type_check` invocation: either a panic (a Rust
`unwrap` on a failed stage) or the terminal state, holding the parse
result printed by the driver together with the raw readback text. -/
inductive Outcome (ρ : Type) where
  | panicked (msg : String)
  | reported (res : Except String ρ) (raw : String)
  deriving Repr

/-- Discriminator: the invocation died in a panic. -/
def Outcome.is_panic {ρ : Type} : Outcome ρ → Bool
  | .panicked _ => true
  | .reported _ _ => false

/-- Discriminator: the invocation finished but the readback text did not
parse as a report. -/
def Outcome.is_parse_failure {ρ : Type} : Outcome ρ → Bool
  | .reported (.error _) _ => true
  | _ => false

/-- Discriminator: the invocation finished with a successfully parsed
Report (which may itself record type errors). -/
def Outcome.is_ok_report {ρ : Type} : Outcome ρ → Bool
  | .reported (.ok _) _ => true
  | _ => false

/-- Model of `type_check` from `kind-checker/src/lib.rs`, parametric in
the external collaborators, all modelled from the spec since their sources
are not in the repository: the code generator `codegen_book`
(`compiler::codegen_book`), the bootstrap checker text `checker_hvm` (the
`CHECKER_HVM` constant embedded at build time), the evaluator `hvm` and
the report parser `parse_report` (`report::parse_report`).  Besides the
outcome it returns the trace of stages performed, one entry per operation
the source invokes, in source order.  The two `unwrap` calls of the source
become the `panicked` outcomes. -/
def type_check {Book R Report : Type} (codegen_book : Book → String)
    (checker_hvm : String) (hvm : Hvm R)
    (parse_report : String → Except String Report) (book : Book) :
    Outcome Report × List Stage :=
  let base_check_code := codegen_book book
  let check_code := checker_hvm ++ base_check_code
  match hvm.from_code check_code with
  | .error e => (.panicked e, [.codegen_book, .from_code])
  | .ok runtime =>
    match hvm.alloc_code runtime "Kind.API.check_all" with
    | .error e => (.panicked e, [.codegen_book, .from_code, .alloc_code])
    | .ok (main, rt1) =>
      let rt2 := hvm.run_io rt1 main
      let rt3 := hvm.normalize rt2 main
      let s := hvm.readback rt3 main
      let res := parse_report s
      (.reported res s,
        [.codegen_book, .from_code, .alloc_code, .run_io, .normalize,
          .readback, .parse_report])

/-- A trivial concrete evaluator over a unit runtime state, used to
evaluate the pipeline theorems at concrete inputs. -/
def unit_hvm : Hvm Unit :=
  { from_code := fun _ => .ok ()
    alloc_code := fun _ _ => .ok (0, ())
    run_io := fun r _ => r
    normalize := fun r _ => r
    readback := fun _ _ => "done" }

/-- A concrete evaluator whose loader rejects every program. -/
def failing_hvm : Hvm Unit :=
  { from_code := fun _ => .error "load failure"
    alloc_code := fun _ _ => .ok (0, ())
    run_io := fun r _ => r
    normalize := fun r _ => r
    readback := fun _ _ => "" }

end KindChecker

open KindSpan
open KindChecker

/-- Claim C1: for every pair of NodeId values (any segment data `d1`, `d2`
and hash fields `h1`, `h2`), equality holds exactly when the precomputed
hash fields are equal, and the `Hash`-trait path feeds only the hash field
to the hasher — the segment sequence is never consulted, so NodeIds with
different segment sequences but colliding hashes compare equal. -/
theorem nodeId_eq_hash_only (d1 d2 : List NodeIdSegment) (h1 h2 : Nat)
    (step : Nat → Nat → Nat) (st : Nat) :
    (NodeId.eq ⟨d1, h1⟩ ⟨d2, h2⟩ = true ↔ h1 = h2) ∧
    NodeId.hash_into ⟨d1, h1⟩ step st = step st h1 := by
  constructor
  · simp [NodeId.eq]
  · rfl

/-- Claim C7: `NodeId::new` is deterministic — applied twice to the same
fixed segment sequence it yields NodeIds that compare equal and produce
equal hasher output, and the underlying hash function `fxhash64` is a
fixed function of the input sequence alone. -/
theorem nodeId_new_deterministic (v : List NodeIdSegment)
    (step : Nat → Nat → Nat) (st : Nat) :
    NodeId.eq (NodeId.new v) (NodeId.new v) = true ∧
    (NodeId.new v).hash = fxhash64 v ∧
    NodeId.hash_into (NodeId.new v) step st
      = NodeId.hash_into (NodeId.new v) step st := by
  refine ⟨?_, rfl, rfl⟩
  simp [NodeId.eq, NodeId.new]

/-- Claim C9: `NodeId::new(v).segments()` returns exactly the vector `v`,
unchanged in content and order. -/
theorem nodeId_new_segments (v : List NodeIdSegment) :
    (NodeId.new v).segments = v :=
  rfl

/-- Claim C10: NodeId equality is an equivalence relation (reflexive,
symmetric, transitive), and equal NodeIds always produce equal
`Hash`-trait output, since both paths are determined by the hash field. -/
theorem nodeId_eq_equivalence (a b c : NodeId)
    (step : Nat → Nat → Nat) (st : Nat) :
    NodeId.eq a a = true ∧
    NodeId.eq a b = NodeId.eq b a ∧
    (NodeId.eq a b = true → NodeId.eq b c = true → NodeId.eq a c = true) ∧
    (NodeId.eq a b = true →
      NodeId.hash_into a step st = NodeId.hash_into b step st) := by
  refine ⟨by simp [NodeId.eq], ?_, ?_, ?_⟩
  · simp only [NodeId.eq]
    by_cases h : a.hash = b.hash
    · simp [h]
    · have h2 : ¬b.hash = a.hash := fun hb => h hb.symm
      simp [h, h2]
  · simp only [NodeId.eq, beq_iff_eq]
    intro h1 h2
    exact h1.trans h2
  · simp only [NodeId.eq, beq_iff_eq, NodeId.hash_into]
    intro h
    rw [h]

/-- Witness for C10 at concrete NodeIds: two values with different segment
sequences but the same hash field are transitively equal and hash alike. -/
theorem nodeId_eq_equivalence_witness :
    NodeId.eq ⟨[], 5⟩ ⟨[NodeIdSegment.index 0], 5⟩ = true ∧
    NodeId.hash_into ⟨[], 5⟩ (fun s v => s + v) 0
      = NodeId.hash_into ⟨[NodeIdSegment.index 0], 5⟩ (fun s v => s + v) 0 := by
  have h := nodeId_eq_equivalence ⟨[], 5⟩ ⟨[NodeIdSegment.symbol 9], 5⟩
    ⟨[NodeIdSegment.index 0], 5⟩ (fun s v => s + v) 0
  exact ⟨h.2.2.1 (by decide) (by decide),
    (nodeId_eq_equivalence ⟨[], 5⟩ ⟨[NodeIdSegment.index 0], 5⟩ ⟨[], 5⟩
      (fun s v => s + v) 0).2.2.2 (by decide)⟩

namespace KindSpan

/-- The empty interner state satisfies the spec invariant. -/
theorem wf_empty : Interner.empty.WF := by
  intro s k
  simp [Interner.empty, lookup_rev]

/-- After interning `s`, looking the returned Symbol up in the resulting
state yields exactly `s`. -/
theorem Interner.intern_to_str (st : Interner) (s : String) (hwf : st.WF) :
    (st.intern s).2.to_str (st.intern s).1 = some s := by
  cases h : lookup_rev st.reverse s with
  | some k => simpa [Interner.intern, h, Interner.to_str] using (hwf s k).mp h
  | none => simp [Interner.intern, h, Interner.to_str, List.getElem?_concat_length]

/-- Interning never changes the string a previously valid Symbol resolves
to (the forward table is append-only). -/
theorem Interner.intern_to_str_mono (st : Interner) (s : String) (y : Symbol)
    (v : String) (h : st.to_str y = some v) : (st.intern s).2.to_str y = some v := by
  cases hl : lookup_rev st.reverse s with
  | some j => simpa [Interner.intern, hl] using h
  | none =>
    have hk : y.val < st.forward.length := (List.getElem?_eq_some_iff.mp h).1
    simpa [Interner.intern, hl, Interner.to_str, List.getElem?_append_left hk]
      using h

/-- Interning preserves the spec invariant on the interner state. -/
theorem Interner.intern_wf (st : Interner) (s : String) (hwf : st.WF) :
    (st.intern s).2.WF := by
  cases hl : lookup_rev st.reverse s with
  | some j => simpa [Interner.intern, hl] using hwf
  | none =>
    intro t k
    simp only [Interner.intern, hl, lookup_rev]
    by_cases ht : t = s
    · subst ht
      simp only [if_pos rfl]
      constructor
      · intro hk
        obtain rfl : st.forward.length = k := by injection hk
        exact List.getElem?_concat_length _ _
      · intro hk
        by_cases hlt : k < st.forward.length
        · exfalso
          rw [List.getElem?_append_left hlt] at hk
          have hcontra := (hwf t k).mpr hk
          rw [hl] at hcontra
          exact Option.noConfusion hcontra
        · by_cases heq : k = st.forward.length
          · subst heq
            rfl
          · exfalso
            rw [List.getElem?_eq_none (by simp; omega)] at hk
            exact Option.noConfusion hk
    · simp only [if_neg ht]
      rw [hwf t k]
      constructor
      · intro hk
        have hlt : k < st.forward.length := (List.getElem?_eq_some_iff.mp hk).1
        rw [List.getElem?_append_left hlt]
        exact hk
      · intro hk
        by_cases hlt : k < st.forward.length
        · rwa [List.getElem?_append_left hlt] at hk
        · exfalso
          rw [List.getElem?_append_right (by omega)] at hk
          have hm : k - st.forward.length = 0 := by
            have hlen := (List.getElem?_eq_some_iff.mp hk).1
            simp at hlen
            omega
          rw [hm] at hk
          simp at hk
          exact ht hk.symm

end KindSpan

/-- Claim C5: interning round-trips and is idempotent — from any state
satisfying the interner invariant, interning `s` twice returns the same
Symbol value both times, and `to_str` applied to the interned Symbol
returns exactly `s`. -/
theorem intern_idempotent_roundtrip (st : Interner) (s : String)
    (hwf : st.WF) :
    ((st.intern s).2.intern s).1 = (st.intern s).1 ∧
    (st.intern s).2.to_str (st.intern s).1 = some s := by
  refine ⟨?_, Interner.intern_to_str st s hwf⟩
  cases hl : lookup_rev st.reverse s with
  | some j => simp [Interner.intern, hl]
  | none => simp [Interner.intern, hl, lookup_rev]

/-- Witness for C5: interning the concrete string "foo" twice from the
empty interner. -/
theorem intern_idempotent_roundtrip_witness :
    ((Interner.empty.intern "foo").2.intern "foo").1
      = (Interner.empty.intern "foo").1 ∧
    (Interner.empty.intern "foo").2.to_str (Interner.empty.intern "foo").1
      = some "foo" :=
  intern_idempotent_roundtrip Interner.empty "foo" wf_empty

/-- Claim C6: interning is injective on string content — from any state
satisfying the interner invariant, interning two distinct strings yields
unequal Symbol values. -/
theorem intern_injective (st : Interner) (s1 s2 : String) (hwf : st.WF)
    (hne : s1 ≠ s2) :
    ((st.intern s1).2.intern s2).1 ≠ (st.intern s1).1 := by
  intro heq
  have h1 : (st.intern s1).2.to_str (st.intern s1).1 = some s1 :=
    Interner.intern_to_str st s1 hwf
  have hwf1 : (st.intern s1).2.WF := Interner.intern_wf st s1 hwf
  have h2 : ((st.intern s1).2.intern s2).2.to_str
      ((st.intern s1).2.intern s2).1 = some s2 :=
    Interner.intern_to_str _ s2 hwf1
  have h3 : ((st.intern s1).2.intern s2).2.to_str (st.intern s1).1 = some s1 :=
    Interner.intern_to_str_mono _ s2 _ _ h1
  rw [heq] at h2
  exact hne (Option.some.inj (h3.symm.trans h2))

/-- Witness for C6: interning the concrete distinct strings "a" then "b"
from the empty interner yields distinct Symbols. -/
theorem intern_injective_witness :
    ((Interner.empty.intern "a").2.intern "b").1
      ≠ (Interner.empty.intern "a").1 :=
  intern_injective Interner.empty "a" "b" wf_empty (by decide)

/-- Claim C2: one invocation of `type_check` performs each pipeline stage
exactly once and in source order — generate code from the Book, load the
bootstrap text concatenated (first) with the generated code (after) into a
fresh evaluator obtained from that combined text alone, allocate the fixed
entry point "Kind.API.check_all", run its effects, normalize, read back,
and parse the text into a report; the resulting trace lists every stage
exactly once, so no stage is retried. -/
theorem type_check_pipeline {Book R Report : Type}
    (codegen_book : Book → String) (checker_hvm : String) (hvm : Hvm R)
    (parse_report : String → Except String Report) (book : Book)
    (rt : R) (main : Nat) (rt1 : R)
    (hload : hvm.from_code (checker_hvm ++ codegen_book book)
      = .ok rt)
    (halloc : hvm.alloc_code rt "Kind.API.check_all" = .ok (main, rt1)) :
    type_check codegen_book checker_hvm hvm parse_report book =
      (.reported
        (parse_report
          (hvm.readback (hvm.normalize (hvm.run_io rt1 main) main) main))
        (hvm.readback (hvm.normalize (hvm.run_io rt1 main) main) main),
       [.codegen_book, .from_code, .alloc_code, .run_io, .normalize,
        .readback, .parse_report]) ∧
    ∀ g : Stage,
      ([Stage.codegen_book, .from_code, .alloc_code, .run_io, .normalize,
        .readback, .parse_report].count g) = 1 := by
  constructor
  · simp [type_check, hload, halloc]
  · intro g
    cases g <;> rfl

/-- Witness for C2 at a concrete trivial evaluator and Book. -/
theorem type_check_pipeline_witness :
    type_check (fun _ : Unit => "gen") "boot" unit_hvm
        (fun s => (Except.ok s : Except String String)) () =
      (Outcome.reported (Except.ok "done") "done",
       [Stage.codegen_book, .from_code, .alloc_code, .run_io, .normalize,
        .readback, .parse_report]) :=
  (type_check_pipeline (fun _ : Unit => "gen") "boot" unit_hvm
    (fun s => Except.ok s) () () 0 () rfl rfl).1

/-- Counterexample for C3: with a loader that rejects the combined source,
`type_check` ends in an `unwrap` panic — the load failure is not surfaced
as a structured pipeline-level error value distinct from a panic, contrary
to the claim as stated. -/
theorem type_check_load_failure_counterexample :
    (type_check (fun _ : Unit => "gen") "boot" failing_hvm
        (fun s => (Except.ok s : Except String String)) ()).1
      = Outcome.panicked "load failure" ∧
    Outcome.is_panic
      (type_check (fun _ : Unit => "gen") "boot" failing_hvm
        (fun s => (Except.ok s : Except String String)) ()).1 = true := by
  constructor <;> rfl

/-- Claim C3 (amended): for every input whose combined source fails to
load into the evaluator, `type_check` aborts the invocation before any
Report is produced — the trace stops after the load stage, so neither
readback nor report parsing runs — but the failure surfaces as an `unwrap`
panic carrying the load error, not as a structured pipeline-level error
value. -/
theorem type_check_load_failure_aborts {Book R Report : Type}
    (codegen_book : Book → String) (checker_hvm : String) (hvm : Hvm R)
    (parse_report : String → Except String Report) (book : Book)
    (e : String)
    (hload : hvm.from_code (checker_hvm ++ codegen_book book)
      = .error e) :
    type_check codegen_book checker_hvm hvm parse_report book
      = (.panicked e, [.codegen_book, .from_code]) := by
  simp [type_check, hload]

/-- Witness for the amended C3 at a concrete failing loader. -/
theorem type_check_load_failure_aborts_witness :
    type_check (fun _ : Unit => "gen") "boot" failing_hvm
        (fun s => (Except.ok s : Except String String)) ()
      = (Outcome.panicked "load failure",
         [Stage.codegen_book, Stage.from_code]) :=
  type_check_load_failure_aborts (fun _ : Unit => "gen") "boot" failing_hvm
    (fun s => Except.ok s) () "load failure" rfl

/-- Claim C4: when the pipeline reaches readback and the text does not
parse as a report, the parse failure is surfaced in the outcome (the error
value is printed by the driver, not swallowed), and that outcome is
distinguishable both from a successfully parsed Report (which may itself
contain type errors) and from earlier pipeline failures (panics). -/
theorem type_check_parse_failure_distinct {Book R Report : Type}
    (codegen_book : Book → String) (checker_hvm : String) (hvm : Hvm R)
    (parse_report : String → Except String Report) (book : Book)
    (rt : R) (main : Nat) (rt1 : R) (e : String)
    (hload : hvm.from_code (checker_hvm ++ codegen_book book)
      = .ok rt)
    (halloc : hvm.alloc_code rt "Kind.API.check_all" = .ok (main, rt1))
    (hparse : parse_report
        (hvm.readback (hvm.normalize (hvm.run_io rt1 main) main) main)
      = .error e) :
    (type_check codegen_book checker_hvm hvm parse_report book).1
      = .reported (.error e)
          (hvm.readback (hvm.normalize (hvm.run_io rt1 main) main) main) ∧
    Outcome.is_parse_failure
      (type_check codegen_book checker_hvm hvm parse_report book).1 = true ∧
    Outcome.is_ok_report
      (type_check codegen_book checker_hvm hvm parse_report book).1 = false ∧
    Outcome.is_panic
      (type_check codegen_book checker_hvm hvm parse_report book).1 = false := by
  refine ⟨?_, ?_, ?_, ?_⟩ <;>
    simp [type_check, hload, halloc, hparse, Outcome.is_parse_failure,
      Outcome.is_ok_report, Outcome.is_panic]

/-- Witness for C4 at a concrete evaluator whose readback text is rejected
by the report parser. -/
theorem type_check_parse_failure_distinct_witness :
    Outcome.is_parse_failure
      (type_check (fun _ : Unit => "gen") "boot" unit_hvm
        (fun _ => (Except.error "bad grammar" : Except String String)) ()).1
      = true :=
  (type_check_parse_failure_distinct (fun _ : Unit => "gen") "boot" unit_hvm
    (fun _ => Except.error "bad grammar") () () 0 () "bad grammar"
    rfl rfl rfl).2.1

/-- Claim C8: pipeline determinism — two runs of `type_check` on the same
Book with the same bootstrap program and the same evaluator (determinism
of the evaluator is the hypothesis that it is modelled by functions) yield
identical outcomes, hence Reports with identical outcome sets. -/
theorem type_check_deterministic {Book R Report : Type}
    (codegen_book : Book → String) (checker_hvm : String) (hvm : Hvm R)
    (parse_report : String → Except String Report) (book : Book)
    (r1 r2 : Outcome Report × List Stage)
    (h1 : r1 = type_check codegen_book checker_hvm hvm parse_report book)
    (h2 : r2 = type_check codegen_book checker_hvm hvm parse_report book) :
    r1 = r2 :=
  h1.trans h2.symm

/-- Witness for C8 at a concrete evaluator and Book. -/
theorem type_check_deterministic_witness :
    (type_check (fun _ : Unit => "gen") "boot" unit_hvm
        (fun s => (Except.ok s : Except String String)) ())
      = (type_check (fun _ : Unit => "gen") "boot" unit_hvm
        (fun s => (Except.ok s : Except String String)) ()) :=
  type_check_deterministic (fun _ : Unit => "gen") "boot" unit_hvm
    (fun s => Except.ok s) () _ _ rfl rfl
